import Mathlib

/-!
Verification of the PackedAncestryMap decoder (Go package `packedancestrymap`)
against its natural-language specification.

The Go source is shallowly embedded: file contents are byte lists
(`List Nat`, each entry an octet), unsigned 32/64-bit machine arithmetic is
`Nat` arithmetic reduced modulo `2 ^ 32` / `2 ^ 64` at each wrapping
operation, and fallible operations return explicit result types.  Every
definition mirrors the corresponding Go function; doc comments name the
source function embedded.
-/

/-- The modulus of Go's `uint32` arithmetic. -/
def M32 : Nat := 2 ^ 32

/-- Embedding of `HashIt` (packedancestrymap.go:180-189): for each byte of
the string in order, `hash *= 23; hash += byte`, both operations wrapping
at 32 bits. -/
def HashIt (s : List Nat) : Nat :=
  s.foldl (fun h b => ((h * 23) % M32 + b) % M32) 0

/-- The whitespace class of Go's regexp `\s` (`[\t\n\f\r ]`), used by the
`\S+` first-column pattern in `HashFileFirstColumn`.  Note byte 11
(vertical tab) is not in this class. -/
def isRxSpace (b : Nat) : Bool := b = 9 || b = 10 || b = 12 || b = 13 || b = 32

/-- First match of the regexp `\S+` in a line: the first maximal run of
non-whitespace bytes (empty when the line has none). -/
def firstToken (line : List Nat) : List Nat :=
  (line.dropWhile isRxSpace).takeWhile (fun b => !isRxSpace b)

/-- One loop iteration of `HashFileFirstColumn`:
`thash = HashIt(firstColumnRegexp.FindString(str)); hash *= 17; hash ^= thash`
(the multiplication wraps at 32 bits; xor of two values below `2 ^ 32`
needs no reduction). -/
def hashStep (h : Nat) (line : List Nat) : Nat :=
  ((h * 17) % M32) ^^^ HashIt (firstToken line)

/-- The `reader.ReadString(10)` loop of `HashFileFirstColumn`
(packedancestrymap.go:204-216), modelled byte by byte: `cur` is the data
accumulated for the current line; on a newline the completed line (with its
terminating byte, as `ReadString` delivers it) is folded into the hash; at
end of input any unterminated trailing data is discarded, exactly as the Go
code returns `hash` when `ReadString` reports `io.EOF`. -/
def hashFileLoop (hash : Nat) (cur : List Nat) : List Nat → Nat
  | [] => hash
  | b :: rest =>
    if b = 10 then hashFileLoop (hashStep hash (cur ++ [b])) [] rest
    else hashFileLoop hash (cur ++ [b]) rest

/-- Embedding of `HashFileFirstColumn` (packedancestrymap.go:194-217). -/
def HashFileFirstColumn (bytes : List Nat) : Nat := hashFileLoop 0 [] bytes

/-- The newline-terminated lines of a byte stream, each including its
terminating newline byte; trailing bytes not followed by a newline form no
line.  This is the sequence of strings the `ReadString(10)` loop of
`HashFileFirstColumn` processes. -/
def linesSplit (cur : List Nat) : List Nat → List (List Nat)
  | [] => []
  | b :: rest =>
    if b = 10 then (cur ++ [b]) :: linesSplit [] rest
    else linesSplit (cur ++ [b]) rest

/-- `strconv.FormatInt(int64(h), 16)` for a nonnegative `h`: minimal
lowercase hexadecimal digits, as ASCII bytes (`Nat.toDigits` uses the
digits `0-9a-f`). -/
def natToHexBytes (n : Nat) : List Nat := (Nat.toDigits 16 n).map Char.toNat

/-- Whether `pat` occurs at the head of `l`. -/
def matchesAt : List Nat → List Nat → Bool
  | [], _ => true
  | _ :: _, [] => false
  | p :: ps, b :: bs => p == b && matchesAt ps bs

/-- Whether `pat` occurs as a contiguous subsequence of `l`.  This is what
`regexp.MatchString` computes when the pattern is a literal string with no
regexp metacharacters — which holds for the hexadecimal digest strings
(alphabet `0-9a-f`) compiled in `Calcishash`. -/
def containsSeq (pat : List Nat) : List Nat → Bool
  | [] => matchesAt pat []
  | b :: rest => matchesAt pat (b :: rest) || containsSeq pat rest

/-- `bufio.ScanLines` drops one carriage return immediately before the line
end (or end of input). -/
def dropLastCR (l : List Nat) : List Nat :=
  if l.getLast? = some 13 then l.dropLast else l

/-- The text delivered by the first `scanner.Scan()` / `scanner.Text()` on a
byte stream: everything before the first newline, with a trailing carriage
return removed. -/
def scannerFirstLine (bytes : List Nat) : List Nat :=
  dropLastCR (bytes.takeWhile (fun b => !(b = 10)))

/-- Embedding of `Calcishash` (packedancestrymap.go:221-258), with the three
files given by content.  I/O errors are out of scope (contents are in
hand); with readable files the Go function reaches the final
`hashOk := indRegexp.MatchString(header) && snpRegexp.MatchString(header) && (indPath != snpPath)`
and returns it, and on an empty geno file returns `(false, nil)`, which this
embedding also yields since a nonempty digest string never occurs in an
empty header. -/
def Calcishash (genoBytes indBytes snpBytes : List Nat)
    (indPath snpPath : String) : Bool :=
  let header := scannerFirstLine genoBytes
  let indHash := natToHexBytes (HashFileFirstColumn indBytes)
  let snpHash := natToHexBytes (HashFileFirstColumn snpBytes)
  containsSeq indHash header && containsSeq snpHash header && (indPath != snpPath)

/-- Segments of a byte stream separated by newline bytes (the separators are
not kept; an empty stream is one empty segment). -/
def splitOnNL : List Nat → List (List Nat)
  | [] => [[]]
  | b :: rest =>
    if b = 10 then [] :: splitOnNL rest
    else
      match splitOnNL rest with
      | [] => [[b]]
      | l :: ls => (b :: l) :: ls

/-- The lines delivered by a `bufio.Scanner` with the default `ScanLines`
split: newline-separated segments, each with a trailing carriage return
dropped; a final empty segment (the file ended with a newline, or was
empty) yields no line. -/
def scannerLines (bytes : List Nat) : List (List Nat) :=
  (if (splitOnNL bytes).getLast? = some [] then (splitOnNL bytes).dropLast
   else splitOnNL bytes).map dropLastCR

/-- `strings.Trim(s, " ")`: remove leading and trailing space bytes. -/
def trimSpaces (l : List Nat) : List Nat :=
  ((l.dropWhile (fun b => b = 32)).reverse.dropWhile (fun b => b = 32)).reverse

/-- The (ASCII) whitespace class of `unicode.IsSpace`, used by
`strings.Fields`; unlike the regexp class `isRxSpace` it contains the
vertical tab (byte 11). -/
def isGoSpace (b : Nat) : Bool :=
  b = 9 || b = 10 || b = 11 || b = 12 || b = 13 || b = 32

/-- Worker for `goFields`: `cur` is the token being accumulated. -/
def goFieldsAux (cur : List Nat) : List Nat → List (List Nat)
  | [] => if cur.isEmpty then [] else [cur]
  | b :: rest =>
    if isGoSpace b then
      if cur.isEmpty then goFieldsAux [] rest
      else cur :: goFieldsAux [] rest
    else goFieldsAux (cur ++ [b]) rest

/-- `strings.Fields`: the maximal runs of non-whitespace bytes. -/
def goFields (l : List Nat) : List (List Nat) := goFieldsAux [] l

/-- ASCII decimal digit test. -/
def isDigit (b : Nat) : Bool := decide (48 ≤ b ∧ b ≤ 57)

/-- Value of a string of ASCII decimal digits. -/
def digitsToNat (l : List Nat) : Nat := l.foldl (fun a b => a * 10 + (b - 48)) 0

/-- Embedding of `strconv.Atoi` (= `strconv.ParseInt(s, 10, 0)` on a 64-bit
platform): optional single leading sign, then one or more decimal digits,
with the value range of `int64`; `none` is Go's non-nil error (syntax or
range). -/
def atoi (s : List Nat) : Option Int :=
  let core : Bool → List Nat → Option Int := fun neg digits =>
    if digits.isEmpty then none
    else if digits.all isDigit then
      let m := digitsToNat digits
      if neg then (if m ≤ 2 ^ 63 then some (-(m : Int)) else none)
      else (if m ≤ 2 ^ 63 - 1 then some (m : Int) else none)
    else none
  match s with
  | [] => none
  | b :: rest =>
    if b = 45 then core true rest
    else if b = 43 then core false rest
    else core false s

/-- Embedding of `strconv.ParseUint(s, 10, 0)` on a 64-bit platform: one or
more decimal digits, no sign, value at most `2 ^ 64 - 1`. -/
def parseUintGo (s : List Nat) : Option Nat :=
  if s.isEmpty then none
  else if s.all isDigit then
    let m := digitsToNat s
    if m ≤ 2 ^ 64 - 1 then some m else none
  else none

/-- Lowercase an ASCII byte. -/
def toLowerB (b : Nat) : Nat := if 65 ≤ b ∧ b ≤ 90 then b + 32 else b

/-- Nonempty all-digit string. -/
def checkDigits1 (l : List Nat) : Bool := !l.isEmpty && l.all isDigit

/-- The exponent part of a decimal float literal after the `e`:
optional sign then one or more digits. -/
def checkExpPart (l : List Nat) : Bool :=
  match l with
  | [] => false
  | b :: r => if b == 43 || b == 45 then checkDigits1 r else checkDigits1 l

/-- The mantissa of a decimal float literal: digits with at most one dot,
and at least one digit overall. -/
def checkMantissa (l : List Nat) : Bool :=
  let before := l.takeWhile isDigit
  let rest := l.drop before.length
  match rest with
  | [] => !before.isEmpty
  | c :: r => c == 46 && r.all isDigit && (!before.isEmpty || !r.isEmpty)

/-- Syntactic validity for `strconv.ParseFloat`: optional sign, then either
a special word (`inf`, `infinity`, `nan`, case-insensitive) or a decimal
mantissa with optional `e`/`E` exponent.  The hexadecimal-float and
digit-separating-underscore forms of the Go grammar and the `float32`
overflow range error are not modelled; no claim involves such tokens, and
the IEEE value itself is never inspected by this package, only parse
success. -/
def parseFloatOk (s : List Nat) : Bool :=
  match s with
  | [] => false
  | _ :: _ =>
    let t := match s with
      | 43 :: r => r
      | 45 :: r => r
      | r => r
    let tl := t.map toLowerB
    if tl = [105, 110, 102] ∨ tl = [105, 110, 102, 105, 110, 105, 116, 121] ∨
        tl = [110, 97, 110] then true
    else
      let mant := t.takeWhile (fun b => !(b == 101 || b == 69))
      match t.drop mant.length with
      | [] => checkMantissa mant
      | _ :: expp => checkMantissa mant && checkExpPart expp

/-- The `Snp` record (packedancestrymap.go:24-31).  `Chromosome` is Go's
`uint8(chr)` (value modulo 256), `PhysicalPos` Go's `uint32(ppos)`.
`GeneticPos` is a `float32` in Go; IEEE values are not shallowly embedded,
so the field holds the already-validated source token — the package never
computes with the value, and no claim mentions it. -/
structure Snp where
  Name : List Nat
  Chromosome : Nat
  GeneticPos : List Nat
  PhysicalPos : Nat
  Ref : Nat
  Alt : Nat
deriving DecidableEq

/-- The `Ind` record (packedancestrymap.go:39-43). -/
structure Ind where
  SampleID : List Nat
  Gender : List Nat
  Label : List Nat
deriving DecidableEq

/-- Outcome of parsing one metadata line, keeping Go's two failure modes
distinct: `parseErr` is a returned non-nil `error`; `indexPanic` is a
runtime `index out of range` panic from subscripting a `fields` slice that
is too short. -/
inductive LineResult (α : Type) where
  | ok (a : α)
  | parseErr
  | indexPanic
deriving DecidableEq

/-- The per-line body of `ReadSnpFile` (packedancestrymap.go:58-79), on the
already-split fields, following Go's evaluation order: `fields[0]`,
`strconv.Atoi(fields[1])`, `strconv.ParseFloat(fields[2], 32)`,
`strconv.ParseUint(fields[3], 10, 0)`, then `fields[4][0]` and
`fields[5][0]` in the struct literal.  A missing index panics; a failed
parse returns the error. -/
def parseSnpFields (fields : List (List Nat)) : LineResult Snp :=
  match fields.get? 0 with
  | none => .indexPanic
  | some f0 =>
    match fields.get? 1 with
    | none => .indexPanic
    | some f1 =>
      match atoi f1 with
      | none => .parseErr
      | some chr =>
        match fields.get? 2 with
        | none => .indexPanic
        | some f2 =>
          if parseFloatOk f2 then
            match fields.get? 3 with
            | none => .indexPanic
            | some f3 =>
              match parseUintGo f3 with
              | none => .parseErr
              | some ppos =>
                match fields.get? 4, fields.get? 5 with
                | some f4, some f5 =>
                  .ok { Name := f0, Chromosome := (chr % 256).toNat,
                        GeneticPos := f2, PhysicalPos := ppos % M32,
                        Ref := f4.headD 0, Alt := f5.headD 0 }
                | _, _ => .indexPanic
          else .parseErr

/-- The per-line body of `ReadIndFile` (packedancestrymap.go:100-106):
`fields[0]`, `fields[1]`, `fields[2]`, panicking when missing. -/
def parseIndFields (fields : List (List Nat)) : LineResult Ind :=
  match fields.get? 0, fields.get? 1, fields.get? 2 with
  | some f0, some f1, some f2 => .ok { SampleID := f0, Gender := f1, Label := f2 }
  | _, _, _ => .indexPanic

/-- One `ReadSnpFile` scanner iteration:
`fields := strings.Fields(strings.Trim(scanner.Text(), " "))` then parse. -/
def parseSnpLine (line : List Nat) : LineResult Snp :=
  parseSnpFields (goFields (trimSpaces line))

/-- One `ReadIndFile` scanner iteration. -/
def parseIndLine (line : List Nat) : LineResult Ind :=
  parseIndFields (goFields (trimSpaces line))

/-- Fold a per-line parser over the scanned lines; the first failure aborts
(the Go loop `return`s on the first non-nil error, and a panic unwinds). -/
def readLinesWith {α : Type} (parse : List Nat → LineResult α) :
    List (List Nat) → LineResult (List α)
  | [] => .ok []
  | l :: rest =>
    match parse l with
    | .parseErr => .parseErr
    | .indexPanic => .indexPanic
    | .ok a =>
      match readLinesWith parse rest with
      | .ok as => .ok (a :: as)
      | .parseErr => .parseErr
      | .indexPanic => .indexPanic

/-- Embedding of `ReadSnpFile` (packedancestrymap.go:46-86) on file
content. -/
def ReadSnpFile (bytes : List Nat) : LineResult (List Snp) :=
  readLinesWith parseSnpLine (scannerLines bytes)

/-- Embedding of `ReadIndFile` (packedancestrymap.go:89-113) on file
content. -/
def ReadIndFile (bytes : List Nat) : LineResult (List Ind) :=
  readLinesWith parseIndLine (scannerLines bytes)

/-- `recordWidth` as computed in `ProcessGenoRows`
(packedancestrymap.go:142-148): `chunkSize = int(math.Ceil(float64(n)/4))`
(exact in `float64` for every feasible count, embedded as the ceiling
division `(n + 3) / 4`), raised to 48 when smaller. -/
def recordWidth (n : Nat) : Nat :=
  let chunkSize := (n + 3) / 4
  if chunkSize < 48 then 48 else chunkSize

/-- One decoded genotype row (packedancestrymap.go:158-165): for each
individual index `i` below `n`,
`byteOffset = i / 4`, `bitOffset = (i % 4) * 2`,
`genotype = (rchunk[byteOffset] >> bitOffset) & 3`.
The Go loop always indexes within `rchunk` (its length is at least
`ceil(n/4)`), so the default of `getD` is never consulted there. -/
def decodeRow (rchunk : List Nat) (n : Nat) : List Nat :=
  (List.range n).map fun i => (rchunk.getD (i / 4) 0 >>> ((i % 4) * 2)) &&& 3

/-- One `genoReader.Read(rchunk)` call of `ProcessGenoRows` as the Go code
uses it: the buffered reader copies the next `min(len(rchunk), remaining)`
bytes of the file into the front of `rchunk` and reports `(n, err)` — which
the Go code discards — so the rest of the buffer keeps its previous (stale)
contents.  Returns the new buffer contents and file position.  (This is the
behaviour of `bufio.Reader.Read` once the file is in the 4096-byte internal
buffer, which covers every input considered here.) -/
def readChunk (file : List Nat) (pos : Nat) (buf : List Nat) : List Nat × Nat :=
  let k := min buf.length (file.length - pos)
  (((file.drop pos).take k) ++ buf.drop k, pos + k)

/-- One handler invocation: `processFunc(genoRow, snp, inds)` receives this
row and this marker (the shared individual table is passed unchanged to
every invocation and is not repeated here). -/
structure Dispatch where
  row : List Nat
  snp : Snp
deriving DecidableEq

/-- The `for snpIndex` loop of `ProcessGenoRows`
(packedancestrymap.go:155-173): for each marker in order, one (unchecked)
`Read` into the shared `rchunk`, one decode, one handler dispatch.  The
returned list is the sequence of handler invocations; `wg.Wait()` makes all
of them complete before the Go function returns. -/
def decodeLoop (file : List Nat) (n : Nat) :
    List Snp → Nat → List Nat → List Dispatch
  | [], _, _ => []
  | snp :: rest, pos, buf =>
    let rb := readChunk file pos buf
    { row := decodeRow rb.1 n, snp := snp } :: decodeLoop file n rest rb.2 rb.1

/-- Failure modes of `ProcessGenoRows`: the `errors.New("Hash is not ok")`
branch, errors propagated from the table readers, and table-reader panics
(which also abort the call with no rows produced). -/
inductive ProcErr where
  | hashNotOk
  | snpParseErr
  | snpIndexPanic
  | indParseErr
  | indIndexPanic
deriving DecidableEq

/-- Embedding of `ProcessGenoRows` (packedancestrymap.go:115-177) on file
contents: verify via `Calcishash`, load the marker and individual tables,
compute the record width, skip one header record (a `Read` into a
zero-initialised buffer), then decode and dispatch one row per marker.
`.ok` carries the full sequence of handler invocations. -/
def ProcessGenoRows (genoBytes indBytes snpBytes : List Nat)
    (indPath snpPath : String) : Except ProcErr (List Dispatch) :=
  if Calcishash genoBytes indBytes snpBytes indPath snpPath = false then
    .error .hashNotOk
  else
    match ReadSnpFile snpBytes with
    | .parseErr => .error .snpParseErr
    | .indexPanic => .error .snpIndexPanic
    | .ok snps =>
      match ReadIndFile indBytes with
      | .parseErr => .error .indParseErr
      | .indexPanic => .error .indIndexPanic
      | .ok inds =>
        let w := recordWidth inds.length
        let hb := readChunk genoBytes 0 (List.replicate w 0)
        .ok (decodeLoop genoBytes inds.length snps hb.2 hb.1)

/-- Example individual table: the single line `I1 M Pop` with terminating
newline.  First-column token `I1` gives digest 1728 = 0x6c0. -/
def exInd : List Nat := [73, 49, 32, 77, 32, 80, 111, 112, 10]

/-- Example marker table: the single line `S1 1 0.0 100 A C` with
terminating newline.  First-column token `S1` gives digest 1958 = 0x7a6. -/
def exSnp : List Nat :=
  [83, 49, 32, 49, 32, 48, 46, 48, 32, 49, 48, 48, 32, 65, 32, 67, 10]

/-- Example geno-file header record, 48 bytes: the text line `6c0 7a6`
(both digests in lowercase hex) and a newline, zero-padded to the record
width for one individual. -/
def exGenoHeader : List Nat :=
  [54, 99, 48, 32, 55, 97, 54, 10] ++ List.replicate 40 0

/-- Complete example geno file: header record plus one full 48-byte marker
record whose first byte is 2 (dosage code 2 for the only individual). -/
def exGeno : List Nat := exGenoHeader ++ [2] ++ List.replicate 47 0

/-- Truncated example geno file: the header record plus a single byte where
a full 48-byte marker record is expected. -/
def exGenoTrunc : List Nat := exGenoHeader ++ [2]

/-- The marker parsed from `exSnp`. -/
def exSnpRec : Snp :=
  { Name := [83, 49], Chromosome := 1, GeneticPos := [48, 46, 48],
    PhysicalPos := 100, Ref := 65, Alt := 67 }

/-- The individual parsed from `exInd`. -/
def exIndRec : Ind :=
  { SampleID := [73, 49], Gender := [77], Label := [80, 111, 112] }

/-- Fields of the marker line `x 300 0.0 1 A C` (chromosome token `300`). -/
def f300 : List (List Nat) := [[120], [51, 48, 48], [48, 46, 48], [49], [65], [67]]

/-- Fields of the marker line `x -1 0.0 1 A C` (chromosome token `-1`). -/
def fNeg1 : List (List Nat) := [[120], [45, 49], [48, 46, 48], [49], [65], [67]]

/-- The marker parsed from `f300`: chromosome 300 stored as 300 mod 256 = 44. -/
def s300 : Snp :=
  { Name := [120], Chromosome := 44, GeneticPos := [48, 46, 48],
    PhysicalPos := 1, Ref := 65, Alt := 67 }
theorem hashIt_eq_specFold (s : List Nat) :
    HashIt s = s.foldl (fun h b => (h * 23 + b) % M32) 0 := by
  unfold HashIt
  congr 1
  funext h b
  exact Nat.mod_add_mod (h * 23) M32 b

theorem hashFileLoop_eq_foldl (bytes : List Nat) :
    ∀ cur hash, hashFileLoop hash cur bytes =
      (linesSplit cur bytes).foldl hashStep hash := by
  induction bytes with
  | nil => intro cur hash; rfl
  | cons b rest ih =>
    intro cur hash
    by_cases hb : b = 10
    · simp only [hashFileLoop, linesSplit, hb, if_true, List.foldl_cons]
      exact ih [] _
    · simp only [hashFileLoop, linesSplit, hb, if_false]
      exact ih (cur ++ [b]) hash

/-- Claim C3: for every file, the digest computed by the
`HashFileFirstColumn` read loop equals the fold, over the file's
newline-delimited lines, of `hash = (hash*17) XOR tokenHash`, starting from
0, where `tokenHash` is the polynomial hash `tokenHash = tokenHash*23 + byte`
of the line's first run of non-whitespace bytes (0 for an empty token), all
arithmetic unsigned 32-bit with silent wraparound. -/
theorem c3_digest_is_line_fold (bytes : List Nat) :
    HashFileFirstColumn bytes =
      (linesSplit [] bytes).foldl
        (fun h line =>
          ((h * 17) % M32) ^^^
            (firstToken line).foldl (fun th b => (th * 23 + b) % M32) 0) 0 := by
  rw [HashFileFirstColumn, hashFileLoop_eq_foldl]
  congr 1
  funext h line
  rw [hashStep, hashIt_eq_specFold]

/-- Claim C9: the polynomial hash of the empty string is 0, and the hash is
order-sensitive: "AB" (bytes 65, 66) and "BA" hash differently. -/
theorem c9_hashit_basic : HashIt [] = 0 ∧ HashIt [65, 66] ≠ HashIt [66, 65] := by
  decide

/-- Claim C2: `Calcishash` returns true iff the first line of the geno file
contains, as substrings, the lowercase minimal hexadecimal renderings of the
individual-table digest and of the marker-table digest, and the two metadata
paths differ; in particular with `indPath = snpPath` it returns false
whatever the digests are.  (A clean digest mismatch is the `false` branch of
this equivalence, not an error: the embedded function is total on file
contents.) -/
theorem c2_verify_iff (g i s : List Nat) (ip sp : String) :
    (Calcishash g i s ip sp = true ↔
      (containsSeq (natToHexBytes (HashFileFirstColumn i)) (scannerFirstLine g) = true ∧
       containsSeq (natToHexBytes (HashFileFirstColumn s)) (scannerFirstLine g) = true ∧
       ip ≠ sp)) ∧
    (ip = sp → Calcishash g i s ip sp = false) := by
  constructor
  · simp only [Calcishash, Bool.and_eq_true, bne_iff_ne]
    tauto
  · intro h
    simp [Calcishash, h]

theorem decodeRow_length (r : List Nat) (n : Nat) :
    (decodeRow r n).length = n := by
  simp [decodeRow]

theorem decodeLoop_length (file : List Nat) (n : Nat) (snps : List Snp) :
    ∀ pos buf, (decodeLoop file n snps pos buf).length = snps.length := by
  induction snps with
  | nil => intro pos buf; rfl
  | cons snp rest ih => intro pos buf; simp [decodeLoop, ih]

theorem decodeLoop_map_snp (file : List Nat) (n : Nat) (snps : List Snp) :
    ∀ pos buf, (decodeLoop file n snps pos buf).map Dispatch.snp = snps := by
  induction snps with
  | nil => intro pos buf; rfl
  | cons snp rest ih => intro pos buf; simp [decodeLoop, ih]

theorem decodeLoop_row_length (file : List Nat) (n : Nat) (snps : List Snp) :
    ∀ pos buf d, d ∈ decodeLoop file n snps pos buf → d.row.length = n := by
  induction snps with
  | nil => intro pos buf d hd; cases hd
  | cons snp rest ih =>
    intro pos buf d hd
    rcases List.mem_cons.mp hd with h | h
    · subst h; exact decodeRow_length _ _
    · exact ih _ _ _ h

/-- Claim C1: the decoder produces one code per individual, the code for
0-based individual `i` being `(record[i / 4] >> ((i % 4) * 2)) & 0b11`; and
in the concrete case of 5 individuals with first record byte
0b11100100 = 228, individuals 0-3 decode to 0, 1, 2, 3 and individual 4's
code is bits 0-1 of the second record byte. -/
theorem c1_decode_formula :
    (∀ (record : List Nat) (n : Nat),
      (decodeRow record n).length = n ∧
      ∀ i, i < n → (decodeRow record n).get? i =
        some ((record.getD (i / 4) 0 >>> ((i % 4) * 2)) &&& 3)) ∧
    (∀ (b : Nat) (rest : List Nat),
      decodeRow (228 :: b :: rest) 5 = [0, 1, 2, 3, b &&& 3]) := by
  refine ⟨fun record n => ⟨decodeRow_length record n, fun i hi => ?_⟩,
    fun b rest => ?_⟩
  · simp [decodeRow, List.getElem?_map, List.getElem?_range hi]
  · show (List.range 5).map _ = _
    rw [show List.range 5 = [0, 1, 2, 3, 4] from rfl]
    simp [List.getD]
    decide

theorem c1_decode_formula_witness :
    4 < 5 ∧ (decodeRow [228, 7] 5).get? 4 =
      some ((([228, 7] : List Nat).getD (4 / 4) 0 >>> ((4 % 4) * 2)) &&& 3) :=
  ⟨by decide, (c1_decode_formula.1 [228, 7] 5).2 4 (by decide)⟩

/-- Claim C7: the record width used for the header skip and for each marker
record is max(48, ceil(n/4)) bytes — exactly 48 whenever the individual
count n is at most 192, and exactly ceil(n/4) for larger n. -/
theorem c7_record_width (n : Nat) :
    recordWidth n = max 48 ((n + 3) / 4) ∧
    (n ≤ 192 → recordWidth n = 48) ∧
    (192 < n → recordWidth n = (n + 3) / 4) := by
  refine ⟨?_, fun h => ?_, fun h => ?_⟩ <;> simp only [recordWidth] <;>
    split <;> omega

theorem c7_record_width_witness :
    192 < 200 ∧ recordWidth 200 = (200 + 3) / 4 :=
  ⟨by decide, (c7_record_width 200).2.2 (by decide)⟩

/-- Claim C4 (failing input): on a geno file holding only 1 byte where a
full 48-byte marker record is expected, `ProcessGenoRows` does not fail
with a short-read error: both `genoReader.Read` results are discarded, so
it decodes the partially-overwritten stale buffer and dispatches the row as
if the file were complete. -/
theorem c4_truncation_not_detected :
    ProcessGenoRows exGenoTrunc exInd exSnp "a" "b" =
      .ok [{ row := [2], snp := exSnpRec }] := by
  rfl

/-- Claim C5 (failing input): a marker-table line with a single token
(`rs1`) and an individual-table line with two tokens (`I1 M`) make the
readers index past the end of the `fields` slice — a runtime panic, not a
returned `MalformedRecord` error — while an unparseable chromosome token
(`rs1 x 0.0 1 A C`) does produce an error return. -/
theorem c5_short_line_panics_not_error :
    parseSnpLine [114, 115, 49] = .indexPanic ∧
    parseIndLine [73, 49, 32, 77] = .indexPanic ∧
    parseSnpLine [114, 115, 49, 32, 120, 32, 48, 46, 48, 32, 49, 32, 65, 32, 67] =
      .parseErr :=
  ⟨rfl, rfl, rfl⟩

/-- Claim C6: when the integrity check fails, `ProcessGenoRows` fails with
the hash error before decoding anything, and a successful return implies
the check and both table loads succeeded and exactly one row per marker was
dispatched; every failure outcome carries no dispatched rows. -/
theorem c6_no_partial_success (g i s : List Nat) (ip sp : String) :
    (Calcishash g i s ip sp = false →
      ProcessGenoRows g i s ip sp = .error .hashNotOk) ∧
    (∀ ds, ProcessGenoRows g i s ip sp = .ok ds →
      Calcishash g i s ip sp = true ∧
      ∃ snps inds, ReadSnpFile s = .ok snps ∧ ReadIndFile i = .ok inds ∧
        ds.length = snps.length) := by
  constructor
  · intro h
    simp [ProcessGenoRows, h]
  · intro ds h
    unfold ProcessGenoRows at h
    by_cases hc : Calcishash g i s ip sp = false
    · rw [if_pos hc] at h; cases h
    · rw [if_neg hc] at h
      refine ⟨by simpa using hc, ?_⟩
      rcases hs : ReadSnpFile s with snps | _ | _ <;> rw [hs] at h
      · rcases hi2 : ReadIndFile i with inds | _ | _ <;> rw [hi2] at h
        · cases h
          exact ⟨snps, inds, rfl, rfl, decodeLoop_length _ _ _ _ _⟩
        · cases h
        · cases h
      · cases h
      · cases h

theorem c6_no_partial_success_witness :
    Calcishash [] [] [] "a" "b" = false ∧
    ProcessGenoRows [] [] [] "a" "b" = .error .hashNotOk :=
  ⟨rfl, (c6_no_partial_success [] [] [] "a" "b").1 rfl⟩

/-- Claim C8: on a successful run the handler is invoked exactly once per
marker of the marker table — the dispatched sequence lists the markers with
no duplicate and no omission, each invocation carrying its marker's decoded
row of one code per individual — and (via the `sync.WaitGroup` barrier,
sequential in this embedding) every invocation completes before
`ProcessGenoRows` returns its result. -/
theorem c8_once_per_marker (g i s : List Nat) (ip sp : String)
    (ds : List Dispatch) (snps : List Snp) (inds : List Ind)
    (hs : ReadSnpFile s = .ok snps) (hi : ReadIndFile i = .ok inds)
    (hp : ProcessGenoRows g i s ip sp = .ok ds) :
    ds.map Dispatch.snp = snps ∧ ∀ d ∈ ds, d.row.length = inds.length := by
  unfold ProcessGenoRows at hp
  by_cases hc : Calcishash g i s ip sp = false
  · rw [if_pos hc] at hp; cases hp
  · rw [if_neg hc, hs, hi] at hp
    cases hp
    exact ⟨decodeLoop_map_snp _ _ _ _ _,
      fun d hd => decodeLoop_row_length _ _ _ _ _ d hd⟩

theorem c8_once_per_marker_witness :
    ProcessGenoRows exGeno exInd exSnp "a" "b" =
      .ok [{ row := [2], snp := exSnpRec }] ∧
    ([{ row := [2], snp := exSnpRec }] : List Dispatch).map Dispatch.snp =
      [exSnpRec] ∧
    ∀ d ∈ ([{ row := [2], snp := exSnpRec }] : List Dispatch),
      d.row.length = ([exIndRec] : List Ind).length :=
  ⟨rfl, c8_once_per_marker exGeno exInd exSnp "a" "b"
    [{ row := [2], snp := exSnpRec }] [exSnpRec] [exIndRec] rfl rfl rfl⟩

/-- Claim C10: whenever a marker line's chromosome token parses as an
integer, the stored chromosome is that integer reduced modulo 256 (Go's
conversion to `uint8`); concretely the tokens `300` and `-1` are accepted
without error and stored as 44 and 255. -/
theorem c10_chromosome_wraps :
    (∀ (fields : List (List Nat)) (s : Snp), parseSnpFields fields = .ok s →
      ∃ f1 chr, fields.get? 1 = some f1 ∧ atoi f1 = some chr ∧
        s.Chromosome = (chr % 256).toNat) ∧
    (∃ s, parseSnpFields f300 = .ok s ∧ s.Chromosome = 44) ∧
    (∃ s, parseSnpFields fNeg1 = .ok s ∧ s.Chromosome = 255) := by
  refine ⟨?_, ⟨_, rfl, rfl⟩, ⟨_, rfl, rfl⟩⟩
  intro fields s h
  unfold parseSnpFields at h
  split at h
  · cases h
  rename_i f0 h0
  split at h
  · cases h
  rename_i f1 h1
  split at h
  · cases h
  rename_i chr ha
  split at h
  · cases h
  rename_i f2 h2
  split at h
  · split at h
    · cases h
    rename_i f3 h3
    split at h
    · cases h
    rename_i ppos hu
    split at h
    · cases h
      exact ⟨f1, chr, h1, ha, rfl⟩
    · cases h
  · cases h

theorem c10_chromosome_wraps_witness :
    parseSnpFields f300 = .ok s300 ∧
    ∃ f1 chr, f300.get? 1 = some f1 ∧ atoi f1 = some chr ∧
      s300.Chromosome = (chr % 256).toNat :=
  ⟨rfl, c10_chromosome_wraps.1 f300 s300 rfl⟩

theorem c2_verify_iff_witness :
    ("a" : String) = "a" ∧ Calcishash exGeno exInd exSnp "a" "a" = false :=
  ⟨rfl, (c2_verify_iff exGeno exInd exSnp "a" "a").2 rfl⟩
